import Mathlib

/-!
Verification of the certificate-checking core of `sslchecker.py`
(`get_cert_info` and `check_expiry`) as a shallow embedding.

Modelling choices:
* Instants are integers counting seconds on the naive proleptic Gregorian
  timeline, with zero at 1970-01-01 00:00:00 (matching `datetime`
  subtraction semantics at second granularity).
* The network part of `get_cert_info` (lines 10-13: opening the socket,
  performing the handshake and calling `getpeercert`) is abstracted as an
  oracle `fetch : String → Except String PeerCert` yielding either the raw
  peer-certificate fields used by the code or the message of the raised
  exception.  The pure part of `get_cert_info` (lines 14-18) is embedded
  directly.
* `datetime.now()` is called once per loop iteration of `check_expiry`
  (line 26); it is modelled as a clock `now : Nat → Int` giving the
  instant sampled during iteration `i`.
* `(expiry - now).days` is `timedelta.days`, that is floor division of the
  difference by 86400 seconds: `Int.fdiv`.
-/

set_option autoImplicit false

namespace SslChecker

/-- The raw peer-certificate fields read by `get_cert_info`
(the notAfter and issuer entries of the cert dict, the latter a sequence of RDNs,
each a sequence of (attribute, value) pairs). -/
structure PeerCert where
  notAfter : String
  issuer : List (List (String × String))
  deriving Repr, DecidableEq

/-- Split a character list at every occurrence of `sep` (like Python
`re`-level tokenisation used by `strptime`; empty chunks arise at
consecutive separators). -/
def splitOn (sep : Char) : List Char → List (List Char)
  | [] => [[]]
  | c :: rest =>
    let r := splitOn sep rest
    if c = sep then [] :: r
    else
      match r with
      | [] => [[c]]
      | t :: ts => (c :: t) :: ts

/-- ASCII lower-casing of one character (strptime matches month and zone
names case-insensitively). -/
def lowerChar (c : Char) : Char :=
  if 'A' ≤ c ∧ c ≤ 'Z' then Char.ofNat (c.toNat + 32) else c

/-- Parse a non-empty all-digit token of at most `maxLen` characters
(the `%d`/`%H`/`%M`/`%S` directives match 1-2 digits, `%Y` 1-4). -/
def parseNatDigits (cs : List Char) (maxLen : Nat) : Option Nat :=
  if cs ≠ [] ∧ cs.length ≤ maxLen ∧ cs.all Char.isDigit then
    some (cs.foldl (fun a c => 10 * a + (c.toNat - 48)) 0)
  else
    none

/-- Month number from the `%b` abbreviation, case-insensitively. -/
def monthNum (cs : List Char) : Option Nat :=
  match cs.map lowerChar with
  | ['j', 'a', 'n'] => some 1
  | ['f', 'e', 'b'] => some 2
  | ['m', 'a', 'r'] => some 3
  | ['a', 'p', 'r'] => some 4
  | ['m', 'a', 'y'] => some 5
  | ['j', 'u', 'n'] => some 6
  | ['j', 'u', 'l'] => some 7
  | ['a', 'u', 'g'] => some 8
  | ['s', 'e', 'p'] => some 9
  | ['o', 'c', 't'] => some 10
  | ['n', 'o', 'v'] => some 11
  | ['d', 'e', 'c'] => some 12
  | _ => none

/-- Gregorian leap-year test. -/
def isLeapYear (y : Nat) : Bool :=
  y % 4 = 0 && (y % 100 ≠ 0 || y % 400 = 0)

/-- Length of month `m` (1-12) of year `y`. -/
def daysInMonth (y m : Nat) : Nat :=
  if m = 2 then (if isLeapYear y then 29 else 28)
  else if m = 4 ∨ m = 6 ∨ m = 9 ∨ m = 11 then 30
  else 31

/-- Days in year `y` before the first of month `m`. -/
def daysBeforeMonth (y m : Nat) : Nat :=
  (List.range (m - 1)).foldl (fun a k => a + daysInMonth y (k + 1)) 0

/-- Proleptic Gregorian ordinal of the date (day 1 is 0001-01-01),
as in `datetime.date.toordinal`. -/
def toOrdinal (y m d : Nat) : Nat :=
  let p := y - 1
  365 * p + p / 4 - p / 100 + p / 400 + daysBeforeMonth y m + d

/-- Seconds since 1970-01-01 00:00:00 of a naive datetime
(719163 is the ordinal of 1970-01-01). -/
def epochSeconds (y m d h mi s : Nat) : Int :=
  ((toOrdinal y m d : Int) - 719163) * 86400 + (h * 3600 + mi * 60 + s : Nat)

/-- Modelled library behaviour: datetime.strptime with format %b %d %H:%M:%S %Y %Z
(line 15 of the source), returning the parsed instant in epoch seconds, or
`none` where `strptime`/`datetime` raise `ValueError` (wrong token shape,
unknown month or zone name, or out-of-range field).  The `%Z` directive is
modelled as accepting the portable zone names GMT and UTC. -/
def strptimeCert (s : String) : Option Int :=
  match (splitOn ' ' s.data).filter (fun t => t ≠ []) with
  | [mon, day, time, year, tz] =>
    match monthNum mon, parseNatDigits day 2, parseNatDigits year 4,
          splitOn ':' time with
    | some m, some d, some y, [hs, ms, ss] =>
      match parseNatDigits hs 2, parseNatDigits ms 2, parseNatDigits ss 2 with
      | some h, some mi, some sec =>
        if (tz.map lowerChar = ['g', 'm', 't'] ∨ tz.map lowerChar = ['u', 't', 'c'])
            ∧ 1 ≤ y ∧ 1 ≤ d ∧ d ≤ daysInMonth y m
            ∧ h ≤ 23 ∧ mi ≤ 59 ∧ sec ≤ 59 then
          some (epochSeconds y m d h mi sec)
        else none
      | _, _, _ => none
    | _, _, _, _ => none
  | _ => none

/-- Message of the `ValueError` raised when `strptime` rejects its input. -/
def parseErrorMsg (s : String) : String :=
  "time data " ++ s ++ " does not match format %b %d %H:%M:%S %Y %Z"

/-- The generator taking x[0] over the issuer RDNs (line 16): first pair of every RDN;
an empty RDN raises `IndexError`. -/
def firstOfEach : List (List (String × String)) → Except String (List (String × String))
  | [] => Except.ok []
  | [] :: _ => Except.error "tuple index out of range"
  | (p :: _) :: rest => do
    let r ← firstOfEach rest
    Except.ok (p :: r)

/-- One insertion into a Python-style dict kept as an association list:
an existing binding of the key is overwritten in place, a new key is
appended. -/
def dictInsert (d : List (String × String)) (k v : String) : List (String × String) :=
  if d.any (fun p => p.1 = k) then
    d.map (fun p => if p.1 = k then (k, v) else p)
  else
    d ++ [(k, v)]

/-- `dict(pairs)`: left-to-right insertion, later bindings of a key
overwrite earlier ones. -/
def dictOf (ps : List (String × String)) : List (String × String) :=
  ps.foldl (fun d p => dictInsert d p.1 p.2) []

/-- `d.get(k, fallback)` on a dict kept as an association list. -/
def dictGet (d : List (String × String)) (k fallback : String) : String :=
  match d.find? (fun p => p.1 = k) with
  | some p => p.2
  | none => fallback

/-- `get_cert_info(host)` (lines 9-18): fetch the raw certificate through
the oracle `fetch`, parse `notAfter`, build the issuer dict and read the
`organizationName` attribute with fallback `"Unknown Issuer"`.  Any
exception is the `Except.error` message. -/
def get_cert_info (fetch : String → Except String PeerCert) (host : String) :
    Except String (Int × String) :=
  match fetch host with
  | Except.error e => Except.error e
  | Except.ok cert =>
    match strptimeCert cert.notAfter with
    | none => Except.error (parseErrorMsg cert.notAfter)
    | some expiry =>
      match firstOfEach cert.issuer with
      | Except.error e => Except.error e
      | Except.ok pairs =>
        let issuer := dictOf pairs
        let issuer_name := dictGet issuer "organizationName" "Unknown Issuer"
        Except.ok (expiry, issuer_name)

/-- One row of the result list of `check_expiry`:
the tuple `(host, days_left, status, issuer_name)`. -/
structure CheckResult where
  host : String
  daysLeft : Option Int
  status : String
  issuer : String
  deriving Repr, DecidableEq

/-- The body of the `for` loop of `check_expiry` (lines 24-36) for one
host, given the instant `now` sampled in that iteration:
on success `days_left = (expiry - now).days` (floor division by 86400
seconds) and the status is classified; on any exception the error row is
appended. -/
def checkOne (fetch : String → Except String PeerCert) (now : Int) (host : String) :
    CheckResult :=
  match get_cert_info fetch host with
  | Except.error e => ⟨host, none, "Error: " ++ e, "Unknown Issuer"⟩
  | Except.ok (expiry, issuer_name) =>
    let days_left : Int := Int.fdiv (expiry - now) 86400
    let status :=
      if days_left < 0 then "Expired"
      else if days_left < 30 then "Expiring Soon"
      else "Valid"
    ⟨host, some days_left, status, issuer_name⟩

/-- The loop of `check_expiry` starting at iteration index `i`. -/
def checkExpiryAux (fetch : String → Except String PeerCert) (now : Nat → Int) :
    Nat → List String → List CheckResult
  | _, [] => []
  | i, h :: t => checkOne fetch (now i) h :: checkExpiryAux fetch now (i + 1) t

/-- `check_expiry(hosts)` (lines 21-37), with the fetch oracle and the
per-iteration clock made explicit. -/
def check_expiry (fetch : String → Except String PeerCert) (now : Nat → Int)
    (hosts : List String) : List CheckResult :=
  checkExpiryAux fetch now 0 hosts

/-! Concrete fixtures used to evaluate the development on closed inputs.
`1767225600` is the epoch instant of 2026-01-01 00:00:00. -/

/-- A well-formed certificate: expiry 2026-01-01, issuer organization
`ExampleCA` bound after a country attribute. -/
def exCertGood : PeerCert :=
  { notAfter := "Jan  1 00:00:00 2026 GMT"
    issuer := [[("countryName", "US")], [("organizationName", "ExampleCA")]] }

/-- A certificate whose issuer lacks the organization attribute. -/
def exCertNoOrg : PeerCert :=
  { notAfter := "Jan  1 00:00:00 2026 GMT"
    issuer := [[("countryName", "US")]] }

/-- A certificate whose `notAfter` field does not parse. -/
def exCertBad : PeerCert :=
  { notAfter := "not a date", issuer := [] }

/-- A mocked fetcher: three hosts answer, every other host fails with a
connection error. -/
def exFetch : String → Except String PeerCert
  | "good.test" => Except.ok exCertGood
  | "noorg.test" => Except.ok exCertNoOrg
  | "bad.test" => Except.ok exCertBad
  | _ => Except.error "connection refused"

/-- A certificate with a single multi-valued issuer RDN whose second
attribute-value pair is the organization name: the attribute is present in
the issuer distinguished name, but it is not the first pair of its RDN. -/
def exCertMultiRdn : PeerCert :=
  { notAfter := "Jan  1 00:00:00 2026 GMT"
    issuer := [[("countryName", "US"), ("organizationName", "X")]] }

/-- A mocked fetcher serving the multi-valued-RDN certificate. -/
def exFetchMulti : String → Except String PeerCert
  | "multi.test" => Except.ok exCertMultiRdn
  | _ => Except.error "connection refused"

end SslChecker


namespace SslChecker

theorem checkOne_host (f : String → Except String PeerCert) (t : Int) (h : String) :
    (checkOne f t h).host = h := by
  unfold checkOne
  cases hg : get_cert_info f h with
  | error e => rfl
  | ok p => cases p; rfl

theorem checkOne_of_error (f : String → Except String PeerCert) (t : Int) (h e : String)
    (he : get_cert_info f h = Except.error e) :
    checkOne f t h = ⟨h, none, "Error: " ++ e, "Unknown Issuer"⟩ := by
  simp [checkOne, he]

theorem checkOne_of_ok (f : String → Except String PeerCert) (t : Int) (h : String)
    (e : Int) (iss : String) (hok : get_cert_info f h = Except.ok (e, iss)) :
    checkOne f t h =
      ⟨h, some (Int.fdiv (e - t) 86400),
        if Int.fdiv (e - t) 86400 < 0 then "Expired"
        else if Int.fdiv (e - t) 86400 < 30 then "Expiring Soon"
        else "Valid", iss⟩ := by
  simp [checkOne, hok]

theorem checkExpiryAux_length (f : String → Except String PeerCert) (now : Nat → Int)
    (hosts : List String) : ∀ i, (checkExpiryAux f now i hosts).length = hosts.length := by
  induction hosts with
  | nil => intro i; rfl
  | cons h t ih => intro i; simp [checkExpiryAux, ih]

theorem checkExpiryAux_getElem (f : String → Except String PeerCert) (now : Nat → Int)
    (hosts : List String) :
    ∀ i j, (checkExpiryAux f now i hosts)[j]? =
      (hosts[j]?).map (fun h => checkOne f (now (i + j)) h) := by
  induction hosts with
  | nil => intro i j; simp [checkExpiryAux]
  | cons h t ih =>
    intro i j
    cases j with
    | zero => rw [checkExpiryAux]; simp
    | succ j =>
      rw [checkExpiryAux]
      have e : i + 1 + j = i + (j + 1) := by omega
      simpa [e] using ih (i + 1) j

theorem check_expiry_getElem (f : String → Except String PeerCert) (now : Nat → Int)
    (hosts : List String) (j : Nat) :
    (check_expiry f now hosts)[j]? = (hosts[j]?).map (fun h => checkOne f (now j) h) := by
  simpa using checkExpiryAux_getElem f now hosts 0 j

theorem get_cert_info_fetch_error (f : String → Except String PeerCert) (h e : String)
    (hf : f h = Except.error e) : get_cert_info f h = Except.error e := by
  simp [get_cert_info, hf]

theorem get_cert_info_parse_error (f : String → Except String PeerCert) (h : String)
    (cert : PeerCert) (hf : f h = Except.ok cert)
    (hp : strptimeCert cert.notAfter = none) :
    get_cert_info f h = Except.error (parseErrorMsg cert.notAfter) := by
  simp [get_cert_info, hf, hp]

theorem get_cert_info_ok (f : String → Except String PeerCert) (h : String)
    (cert : PeerCert) (t : Int) (pairs : List (String × String))
    (hf : f h = Except.ok cert) (hp : strptimeCert cert.notAfter = some t)
    (hi : firstOfEach cert.issuer = Except.ok pairs) :
    get_cert_info f h =
      Except.ok (t, dictGet (dictOf pairs) "organizationName" "Unknown Issuer") := by
  simp [get_cert_info, hf, hp, hi]

theorem checkExpiryAux_map_host (f : String → Except String PeerCert) (now : Nat → Int)
    (hosts : List String) :
    ∀ i, (checkExpiryAux f now i hosts).map CheckResult.host = hosts := by
  induction hosts with
  | nil => intro i; rfl
  | cons h t ih => intro i; simp [checkExpiryAux, checkOne_host, ih]

end SslChecker

namespace SslChecker

theorem find?_overwrite (k0 v k : String) (hne : k0 ≠ k) (d : List (String × String)) :
    (d.map (fun p => if p.1 = k0 then (k0, v) else p)).find? (fun p => p.1 = k) =
      d.find? (fun p => p.1 = k) := by
  induction d with
  | nil => rfl
  | cons p d ih =>
    by_cases h : p.1 = k0
    · simp [List.find?, h, hne, ih]
    · simp only [List.map_cons, if_neg h, List.find?]
      cases hp : (decide (p.1 = k)) <;> simp [ih]

theorem find?_dictInsert (k0 v k : String) (d : List (String × String)) :
    (dictInsert d k0 v).find? (fun p => p.1 = k) =
      if k0 = k then some (k0, v) else d.find? (fun p => p.1 = k) := by
  induction d with
  | nil =>
    by_cases hk : k0 = k <;> simp [dictInsert, List.find?, hk]
  | cons p d ih =>
    by_cases hpk0 : p.1 = k0
    · have hins : dictInsert (p :: d) k0 v =
          (k0, v) :: d.map (fun q => if q.1 = k0 then (k0, v) else q) := by
        simp [dictInsert, List.any_cons, hpk0]
      rw [hins]
      by_cases hk : k0 = k
      · simp [List.find?, hk]
      · simp only [List.find?, if_neg hk]
        have hpred : (decide (((k0, v) : String × String).1 = k)) = false := by
          simp [hk]
        rw [hpred]
        rw [find?_overwrite k0 v k hk]
        have hpk : (decide (p.1 = k)) = false := by
          simp [hpk0]
          intro hc
          exact absurd (hpk0 ▸ hc) hk
        simp [List.find?, hpk]
    · by_cases hd : d.any (fun q => q.1 = k0)
      · have hins : dictInsert (p :: d) k0 v =
            p :: d.map (fun q => if q.1 = k0 then (k0, v) else q) := by
          simp [dictInsert, List.any_cons, hpk0, hd]
        have hdins : dictInsert d k0 v =
            d.map (fun q => if q.1 = k0 then (k0, v) else q) := by
          simp [dictInsert, hd]
        rw [hins]
        by_cases hpk : p.1 = k
        · have hk : k0 ≠ k := fun hc => hpk0 (by rw [hpk, hc])
          simp [List.find?, hpk, hk]
        · simp only [List.find?]
          have hb : (decide (p.1 = k)) = false := by simp [hpk]
          rw [hb]
          rw [← hdins, ih]
      · have hins : dictInsert (p :: d) k0 v = p :: (d ++ [(k0, v)]) := by
          simp [dictInsert, List.any_cons, hpk0, hd]
        have hdins : dictInsert d k0 v = d ++ [(k0, v)] := by
          simp [dictInsert, hd]
        rw [hins]
        by_cases hpk : p.1 = k
        · have hk : k0 ≠ k := fun hc => hpk0 (by rw [hpk, hc])
          simp [List.find?, hpk, hk]
        · simp only [List.find?]
          have hb : (decide (p.1 = k)) = false := by simp [hpk]
          rw [hb]
          rw [← hdins, ih]

theorem find?_dictOf_fold (k : String) :
    ∀ (ps d : List (String × String)),
      ((ps.foldl (fun d p => dictInsert d p.1 p.2) d).find? (fun p => p.1 = k)) =
        ((ps.reverse.find? (fun p => p.1 = k)).or (d.find? (fun p => p.1 = k))) := by
  intro ps
  induction ps with
  | nil => intro d; simp
  | cons p ps ih =>
    intro d
    simp only [List.foldl_cons, List.reverse_cons, List.find?_append]
    rw [ih, find?_dictInsert]
    cases hfind : ps.reverse.find? (fun q => q.1 = k) with
    | some q => simp [Option.or]
    | none =>
      cases p with
      | mk a b => by_cases hp : a = k <;> simp [List.find?, hp, Option.or]

theorem dictGet_dictOf (ps : List (String × String)) (k fb : String) :
    dictGet (dictOf ps) k fb =
      match ps.reverse.find? (fun p => p.1 = k) with
      | some q => q.2
      | none => fb := by
  unfold dictGet dictOf
  rw [find?_dictOf_fold k ps []]
  cases ps.reverse.find? (fun p => p.1 = k) <;> simp [List.find?, Option.or]

theorem error_status_ne (m : String) :
    "Error: " ++ m ≠ "Expired" ∧ "Error: " ++ m ≠ "Expiring Soon" ∧
      "Error: " ++ m ≠ "Valid" := by
  refine ⟨fun h => ?_, fun h => ?_, fun h => ?_⟩
  · have hd := congrArg (fun s => s.data[1]?) h
    have h2 : some 'r' = some 'x' := hd
    exact absurd h2 (by decide)
  · have hd := congrArg (fun s => s.data[1]?) h
    have h2 : some 'r' = some 'x' := hd
    exact absurd h2 (by decide)
  · have hd := congrArg (fun s => s.data[0]?) h
    have h2 : some 'E' = some 'V' := hd
    exact absurd h2 (by decide)

end SslChecker

namespace SslChecker

theorem checkOne_issuer (f : String → Except String PeerCert) (t : Int) (h : String) :
    (checkOne f t h).issuer =
      match get_cert_info f h with
      | Except.error _ => "Unknown Issuer"
      | Except.ok p => p.2 := by
  cases hg : get_cert_info f h with
  | error e => simp [checkOne, hg]
  | ok p => cases p; simp [checkOne, hg]

theorem checkExpiryAux_map_host_issuer (f : String → Except String PeerCert)
    (now1 now2 : Nat → Int) (hosts : List String) :
    ∀ i1 i2, (checkExpiryAux f now1 i1 hosts).map (fun r => (r.host, r.issuer)) =
      (checkExpiryAux f now2 i2 hosts).map (fun r => (r.host, r.issuer)) := by
  induction hosts with
  | nil => intro i1 i2; rfl
  | cons h t ih =>
    intro i1 i2
    simp only [checkExpiryAux, List.map_cons]
    rw [ih (i1 + 1) (i2 + 1)]
    rw [checkOne_host, checkOne_host, checkOne_issuer, checkOne_issuer]

theorem mem_checkExpiryAux (f : String → Except String PeerCert) (now : Nat → Int)
    (hosts : List String) :
    ∀ i r, r ∈ checkExpiryAux f now i hosts → ∃ t h, r = checkOne f t h := by
  induction hosts with
  | nil => intro i r hr; simp [checkExpiryAux] at hr
  | cons h tl ih =>
    intro i r hr
    simp only [checkExpiryAux, List.mem_cons] at hr
    cases hr with
    | inl he => exact ⟨now i, h, he⟩
    | inr hm => exact ih (i + 1) r hm

theorem checkExpiryAux_const (f : String → Except String PeerCert) (t : Int)
    (hosts : List String) :
    ∀ i, checkExpiryAux f (fun _ => t) i hosts = hosts.map (checkOne f t) := by
  induction hosts with
  | nil => intro i; rfl
  | cons h tl ih => intro i; simp [checkExpiryAux, ih]

/-- C1: for every fetch oracle, clock and input list, `check_expiry` returns
exactly one `CheckResult` per input hostname, in input order, with each
the `host` field of each result equal to the corresponding input hostname;
since this holds for oracles failing on any subset of hosts, a failure for
one host never prevents results for the other hosts. -/
theorem claim_C1_one_result_per_host_in_order (f : String → Except String PeerCert)
    (now : Nat → Int) (hosts : List String) :
    (check_expiry f now hosts).length = hosts.length ∧
      (check_expiry f now hosts).map CheckResult.host = hosts :=
  ⟨checkExpiryAux_length f now hosts 0, checkExpiryAux_map_host f now hosts 0⟩

/-- C7 (amended): given a fixed fetcher, two runs of `check_expiry` agree on
the host and issuer of every result whatever the sampled instants are, and
agree on the full result sequences whenever the sampled instants coincide;
the status field, however, can change when the current time advances (see
the counterexample). -/
theorem claim_C7_amended_issuer_stable (f : String → Except String PeerCert)
    (now1 now2 : Nat → Int) (hosts : List String) :
    ((check_expiry f now1 hosts).map (fun r => (r.host, r.issuer)) =
      (check_expiry f now2 hosts).map (fun r => (r.host, r.issuer))) ∧
    ((∀ j, now1 j = now2 j) →
      check_expiry f now1 hosts = check_expiry f now2 hosts) := by
  constructor
  · exact checkExpiryAux_map_host_issuer f now1 now2 hosts 0 0
  · intro hj
    have : now1 = now2 := funext hj
    rw [this]

/-- C7 witness for the amended statement, at a mocked fetcher, one host and
concrete clocks. -/
theorem claim_C7_amended_witness :
    ((check_expiry exFetch (fun _ => (0 : Int)) ["good.test"]).map
        (fun r => (r.host, r.issuer)) =
      (check_expiry exFetch (fun _ => (999999 : Int)) ["good.test"]).map
        (fun r => (r.host, r.issuer))) ∧
    check_expiry exFetch (fun _ => (0 : Int)) ["good.test"] =
      check_expiry exFetch (fun _ => (0 : Int)) ["good.test"] :=
  ⟨(claim_C7_amended_issuer_stable exFetch (fun _ => 0) (fun _ => 999999) ["good.test"]).1,
   (claim_C7_amended_issuer_stable exFetch (fun _ => 0) (fun _ => 0) ["good.test"]).2
     (fun _ => rfl)⟩

/-- C7 counterexample: with the fetcher fixed, two calls whose sampled
current instants differ produce different statuses for the same host
("Valid" 100 days before expiry, "Expiring Soon" 10 days before expiry), so
"identical status and issuer" does not hold when only the fetcher is
fixed. -/
theorem claim_C7_counterexample :
    (check_expiry exFetch (fun _ => 1767225600 - 100 * 86400) ["good.test"]).map
        (fun r => r.status) = ["Valid"] ∧
    (check_expiry exFetch (fun _ => 1767225600 - 10 * 86400) ["good.test"]).map
        (fun r => r.status) = ["Expiring Soon"] ∧
    ("Valid" : String) ≠ "Expiring Soon" := by
  decide

/-- C9: in every result of `check_expiry`, `daysLeft` is `none` exactly when
the status is an error status, and the status is always one of the three
classification tags or an error tag. -/
theorem claim_C9_daysleft_none_iff_error (f : String → Except String PeerCert)
    (now : Nat → Int) (hosts : List String) :
    ∀ r ∈ check_expiry f now hosts,
      (r.daysLeft = none ↔ ∃ m, r.status = "Error: " ++ m) ∧
      (r.status = "Expired" ∨ r.status = "Expiring Soon" ∨ r.status = "Valid" ∨
        ∃ m, r.status = "Error: " ++ m) := by
  intro r hr
  obtain ⟨t, h, rfl⟩ := mem_checkExpiryAux f now hosts 0 r hr
  cases hg : get_cert_info f h with
  | error e =>
    rw [checkOne_of_error f t h e hg]
    refine ⟨⟨fun _ => ⟨e, rfl⟩, fun _ => rfl⟩, Or.inr (Or.inr (Or.inr ⟨e, rfl⟩))⟩
  | ok p =>
    obtain ⟨e, iss⟩ := p
    rw [checkOne_of_ok f t h e iss hg]
    constructor
    · constructor
      · intro hc; exact absurd hc (by simp)
      · intro ⟨m, hm⟩
        by_cases h1 : Int.fdiv (e - t) 86400 < 0
        · rw [if_pos h1] at hm; exact absurd hm.symm (error_status_ne m).1
        · by_cases h2 : Int.fdiv (e - t) 86400 < 30
          · rw [if_neg h1, if_pos h2] at hm
            exact absurd hm.symm (error_status_ne m).2.1
          · rw [if_neg h1, if_neg h2] at hm
            exact absurd hm.symm (error_status_ne m).2.2
    · by_cases h1 : Int.fdiv (e - t) 86400 < 0
      · exact Or.inl (by rw [if_pos h1])
      · by_cases h2 : Int.fdiv (e - t) 86400 < 30
        · exact Or.inr (Or.inl (by rw [if_neg h1, if_pos h2]))
        · exact Or.inr (Or.inr (Or.inl (by rw [if_neg h1, if_neg h2])))

/-- C9 witness at a mocked fetcher, for the error row of an unreachable
host. -/
theorem claim_C9_witness :
    ((⟨"down.test", none, "Error: connection refused", "Unknown Issuer"⟩ :
        CheckResult).daysLeft = none ↔
      ∃ m, (⟨"down.test", none, "Error: connection refused", "Unknown Issuer"⟩ :
        CheckResult).status = "Error: " ++ m) ∧
    ((⟨"down.test", none, "Error: connection refused", "Unknown Issuer"⟩ :
        CheckResult).status = "Expired" ∨
      (⟨"down.test", none, "Error: connection refused", "Unknown Issuer"⟩ :
        CheckResult).status = "Expiring Soon" ∨
      (⟨"down.test", none, "Error: connection refused", "Unknown Issuer"⟩ :
        CheckResult).status = "Valid" ∨
      ∃ m, (⟨"down.test", none, "Error: connection refused", "Unknown Issuer"⟩ :
        CheckResult).status = "Error: " ++ m) :=
  claim_C9_daysleft_none_iff_error exFetch (fun _ => 0) ["down.test"]
    ⟨"down.test", none, "Error: connection refused", "Unknown Issuer"⟩ (by decide)

/-- C10: with the fetcher and the current instant fixed, `check_expiry` is a
homomorphism for input concatenation and maps the empty batch to the empty
result list, so checking hosts one at a time and concatenating (as the UI
loop does) equals checking the whole batch. -/
theorem claim_C10_concat_homomorphism (f : String → Except String PeerCert)
    (t : Int) (xs ys : List String) :
    check_expiry f (fun _ => t) (xs ++ ys) =
      check_expiry f (fun _ => t) xs ++ check_expiry f (fun _ => t) ys ∧
    check_expiry f (fun _ => t) ([] : List String) = [] := by
  refine ⟨?_, rfl⟩
  unfold check_expiry
  rw [checkExpiryAux_const f t (xs ++ ys) 0, checkExpiryAux_const f t xs 0,
    checkExpiryAux_const f t ys 0, List.map_append]

end SslChecker

namespace SslChecker

/-- C2: for a host at any position of the batch, a fetch failure with any
error, and equally a `notAfter` parse failure, produce the row
`(host, none, "Error: " ++ message, "Unknown Issuer")` at that position,
while the batch still yields one row per host (the failure never escapes
`check_expiry`). -/
theorem claim_C2_failures_become_error_rows (f : String → Except String PeerCert)
    (now : Nat → Int) (hosts : List String) (j : Nat) (h : String)
    (hh : hosts[j]? = some h) :
    (∀ e, f h = Except.error e →
      (check_expiry f now hosts)[j]? =
        some ⟨h, none, "Error: " ++ e, "Unknown Issuer"⟩) ∧
    (∀ cert, f h = Except.ok cert → strptimeCert cert.notAfter = none →
      (check_expiry f now hosts)[j]? =
        some ⟨h, none, "Error: " ++ parseErrorMsg cert.notAfter, "Unknown Issuer"⟩) ∧
    (check_expiry f now hosts).length = hosts.length := by
  refine ⟨?_, ?_, checkExpiryAux_length f now hosts 0⟩
  · intro e he
    rw [check_expiry_getElem, hh]
    rw [Option.map_some']
    rw [checkOne_of_error f (now j) h e (get_cert_info_fetch_error f h e he)]
  · intro cert hc hp
    rw [check_expiry_getElem, hh]
    rw [Option.map_some']
    rw [checkOne_of_error f (now j) h _ (get_cert_info_parse_error f h cert hc hp)]

/-- C2 witness: a refused connection and an unparsable `notAfter` field on
concrete hosts. -/
theorem claim_C2_witness :
    (check_expiry exFetch (fun _ => 0) ["down.test", "bad.test"])[0]? =
      some ⟨"down.test", none, "Error: connection refused", "Unknown Issuer"⟩ ∧
    (check_expiry exFetch (fun _ => 0) ["down.test", "bad.test"])[1]? =
      some ⟨"bad.test", none, "Error: " ++ parseErrorMsg "not a date",
        "Unknown Issuer"⟩ :=
  ⟨(claim_C2_failures_become_error_rows exFetch (fun _ => 0)
      ["down.test", "bad.test"] 0 "down.test" rfl).1 "connection refused" rfl,
   (claim_C2_failures_become_error_rows exFetch (fun _ => 0)
      ["down.test", "bad.test"] 1 "bad.test" rfl).2.1 exCertBad rfl rfl⟩

/-- C3: for a host whose certificate was fetched and parsed successfully,
the status is classified from the produced day count: negative gives
"Expired", `0 ≤ d < 30` gives "Expiring Soon", `30 ≤ d` gives "Valid"; in
particular an expiry exactly 30 days after the sampled instant yields day
count 30 and status "Valid", not "Expiring Soon". -/
theorem claim_C3_status_classification (f : String → Except String PeerCert)
    (now : Nat → Int) (hosts : List String) (j : Nat) (h : String)
    (hh : hosts[j]? = some h) (e : Int) (iss : String)
    (hok : get_cert_info f h = Except.ok (e, iss)) :
    ∀ r, (check_expiry f now hosts)[j]? = some r →
      ∃ d : Int, r.daysLeft = some d ∧
        (d < 0 → r.status = "Expired") ∧
        (0 ≤ d → d < 30 → r.status = "Expiring Soon") ∧
        (30 ≤ d → r.status = "Valid") ∧
        (e = now j + 30 * 86400 → d = 30 ∧ r.status = "Valid") := by
  intro r hr
  rw [check_expiry_getElem, hh, Option.map_some'] at hr
  obtain rfl : checkOne f (now j) h = r := Option.some.inj hr
  rw [checkOne_of_ok f (now j) h e iss hok]
  refine ⟨Int.fdiv (e - now j) 86400, rfl, ?_, ?_, ?_, ?_⟩
  · intro hd; simp only [if_pos hd]
  · intro h0 h30
    have h1 : ¬ Int.fdiv (e - now j) 86400 < 0 := by omega
    simp only [if_neg h1, if_pos h30]
  · intro h30
    have h1 : ¬ Int.fdiv (e - now j) 86400 < 0 := by omega
    have h2 : ¬ Int.fdiv (e - now j) 86400 < 30 := by omega
    simp only [if_neg h1, if_neg h2]
  · intro he
    have hd : e - now j = 30 * 86400 := by omega
    have h30 : Int.fdiv (e - now j) 86400 = 30 := by
      rw [hd]; exact Int.mul_fdiv_cancel 30 (by decide)
    have h1 : ¬ Int.fdiv (e - now j) 86400 < 0 := by omega
    have h2 : ¬ Int.fdiv (e - now j) 86400 < 30 := by omega
    exact ⟨h30, by simp only [if_neg h1, if_neg h2]⟩

/-- C3 witness: expiry 2026-01-01 fetched 100 days earlier. -/
theorem claim_C3_witness :
    ∃ d : Int,
      (⟨"good.test", some 100, "Valid", "ExampleCA"⟩ : CheckResult).daysLeft = some d ∧
      (d < 0 → (⟨"good.test", some 100, "Valid", "ExampleCA"⟩ : CheckResult).status = "Expired") ∧
      (0 ≤ d → d < 30 → (⟨"good.test", some 100, "Valid", "ExampleCA"⟩ : CheckResult).status = "Expiring Soon") ∧
      (30 ≤ d → (⟨"good.test", some 100, "Valid", "ExampleCA"⟩ : CheckResult).status = "Valid") ∧
      (1767225600 = (fun _ => 1767225600 - 100 * 86400 : Nat → Int) 0 + 30 * 86400 →
        d = 30 ∧ (⟨"good.test", some 100, "Valid", "ExampleCA"⟩ : CheckResult).status = "Valid") :=
  claim_C3_status_classification exFetch (fun _ => 1767225600 - 100 * 86400)
    ["good.test"] 0 "good.test" rfl 1767225600 "ExampleCA" rfl
    ⟨"good.test", some 100, "Valid", "ExampleCA"⟩ (by decide)

end SslChecker

namespace SslChecker

/-- C4 counterexample: with expiry three hours in the past, the code reports
`daysUntilExpiry = -1` (floor division), whereas truncation toward zero of
the same difference is `0`; so "an expiry a few hours in the past reports 0,
not -1" is false of the code. -/
theorem claim_C4_counterexample :
    ((check_expiry exFetch (fun _ => 1767225600 + 10800) ["good.test"]).map
        (fun r => r.daysLeft) = [some (-1)]) ∧
      Int.tdiv ((1767225600 : Int) - (1767225600 + 10800)) 86400 = 0 ∧
      ((-1 : Int) ≠ 0) := by
  decide

/-- C4 (amended): for a successfully fetched host, `daysUntilExpiry` is the
floor (rounding toward negative infinity in both directions, as
`timedelta.days` does) of the difference between expiry and the sampled
instant in whole days: 29 days and 23 hours in the future reports 29, and
an expiry a few hours in the past reports -1, not 0. -/
theorem claim_C4_amended_floor_days (f : String → Except String PeerCert)
    (now : Nat → Int) (hosts : List String) (j : Nat) (h : String)
    (hh : hosts[j]? = some h) (e : Int) (iss : String)
    (hok : get_cert_info f h = Except.ok (e, iss)) :
    ∀ r, (check_expiry f now hosts)[j]? = some r →
      r.daysLeft = some (Int.fdiv (e - now j) 86400) ∧
      (e - now j = 29 * 86400 + 23 * 3600 → r.daysLeft = some 29) ∧
      (-86400 < e - now j → e - now j < 0 → r.daysLeft = some (-1)) := by
  intro r hr
  rw [check_expiry_getElem, hh, Option.map_some'] at hr
  obtain rfl : checkOne f (now j) h = r := Option.some.inj hr
  rw [checkOne_of_ok f (now j) h e iss hok]
  have hb : (0 : Int) < 86400 := by decide
  have heq := Int.fdiv_add_fmod (e - now j) 86400
  have hm1 := Int.fmod_nonneg' (e - now j) hb
  have hm2 := Int.fmod_lt_of_pos (e - now j) hb
  refine ⟨rfl, ?_, ?_⟩
  · intro hd
    have h29 : Int.fdiv (e - now j) 86400 = 29 := by omega
    exact congrArg some h29
  · intro hd1 hd2
    have hm : Int.fdiv (e - now j) 86400 = -1 := by omega
    exact congrArg some hm

/-- C4 amended witness: expiry three hours before the sampled instant. -/
theorem claim_C4_amended_witness :
    ((⟨"good.test", some (-1), "Expired", "ExampleCA"⟩ : CheckResult).daysLeft =
        some (Int.fdiv ((1767225600 : Int) - (1767225600 + 10800)) 86400)) ∧
    ((1767225600 : Int) - (1767225600 + 10800) = 29 * 86400 + 23 * 3600 →
      (⟨"good.test", some (-1), "Expired", "ExampleCA"⟩ : CheckResult).daysLeft =
        some 29) ∧
    (-86400 < (1767225600 : Int) - (1767225600 + 10800) →
      (1767225600 : Int) - (1767225600 + 10800) < 0 →
      (⟨"good.test", some (-1), "Expired", "ExampleCA"⟩ : CheckResult).daysLeft =
        some (-1)) :=
  claim_C4_amended_floor_days exFetch (fun _ => 1767225600 + 10800) ["good.test"]
    0 "good.test" rfl 1767225600 "ExampleCA" rfl
    ⟨"good.test", some (-1), "Expired", "ExampleCA"⟩ (by decide)

/-- C5 counterexample: a certificate expiring exactly at the sampled instant
yields `daysUntilExpiry = 0` and status "Expiring Soon", not "Expired". -/
theorem claim_C5_counterexample :
    ((check_expiry exFetch (fun _ => 1767225600) ["good.test"]).map
        (fun r => (r.daysLeft, r.status)) = [(some 0, "Expiring Soon")]) ∧
      ("Expiring Soon" : String) ≠ "Expired" := by
  decide

/-- C5 (amended): for a successfully fetched host whose expiry is strictly
earlier than the sampled instant, `daysUntilExpiry` is negative and the
status is "Expired"; when the expiry equals the sampled instant exactly,
`daysUntilExpiry` is 0 and the status is "Expiring Soon". -/
theorem claim_C5_amended_past_is_expired (f : String → Except String PeerCert)
    (now : Nat → Int) (hosts : List String) (j : Nat) (h : String)
    (hh : hosts[j]? = some h) (e : Int) (iss : String)
    (hok : get_cert_info f h = Except.ok (e, iss)) :
    ∀ r, (check_expiry f now hosts)[j]? = some r →
      (e < now j →
        ∃ d : Int, r.daysLeft = some d ∧ d < 0 ∧ r.status = "Expired") ∧
      (e = now j → r.daysLeft = some 0 ∧ r.status = "Expiring Soon") := by
  intro r hr
  rw [check_expiry_getElem, hh, Option.map_some'] at hr
  obtain rfl : checkOne f (now j) h = r := Option.some.inj hr
  rw [checkOne_of_ok f (now j) h e iss hok]
  have hb : (0 : Int) < 86400 := by decide
  have heq := Int.fdiv_add_fmod (e - now j) 86400
  have hm1 := Int.fmod_nonneg' (e - now j) hb
  have hm2 := Int.fmod_lt_of_pos (e - now j) hb
  constructor
  · intro hlt
    have hneg : Int.fdiv (e - now j) 86400 < 0 := by omega
    exact ⟨Int.fdiv (e - now j) 86400, rfl, hneg, by simp only [if_pos hneg]⟩
  · intro hen
    have h0 : Int.fdiv (e - now j) 86400 = 0 := by omega
    have hn : ¬ Int.fdiv (e - now j) 86400 < 0 := by omega
    have h30 : Int.fdiv (e - now j) 86400 < 30 := by omega
    exact ⟨congrArg some h0, by simp only [if_neg hn, if_pos h30]⟩

/-- C5 amended witness: expiry three hours past, and expiry exactly at the
sampled instant. -/
theorem claim_C5_amended_witness :
    (∃ d : Int,
      (⟨"good.test", some (-1), "Expired", "ExampleCA"⟩ : CheckResult).daysLeft =
          some d ∧ d < 0 ∧
        (⟨"good.test", some (-1), "Expired", "ExampleCA"⟩ : CheckResult).status =
          "Expired") ∧
    ((⟨"good.test", some 0, "Expiring Soon", "ExampleCA"⟩ : CheckResult).daysLeft =
        some 0 ∧
      (⟨"good.test", some 0, "Expiring Soon", "ExampleCA"⟩ : CheckResult).status =
        "Expiring Soon") :=
  ⟨(claim_C5_amended_past_is_expired exFetch (fun _ => 1767225600 + 10800)
      ["good.test"] 0 "good.test" rfl 1767225600 "ExampleCA" rfl
      ⟨"good.test", some (-1), "Expired", "ExampleCA"⟩ (by decide)).1 (by decide),
   (claim_C5_amended_past_is_expired exFetch (fun _ => 1767225600)
      ["good.test"] 0 "good.test" rfl 1767225600 "ExampleCA" rfl
      ⟨"good.test", some 0, "Expiring Soon", "ExampleCA"⟩ (by decide)).2 rfl⟩

/-- C6 counterexample: the code reads only the first attribute-value pair of
each issuer RDN, so for a certificate whose single issuer RDN carries the
organization name as its second pair the attribute is present in the issuer
distinguished name, yet the produced issuer is "Unknown Issuer" rather than
the bound value "X". -/
theorem claim_C6_counterexample :
    exCertMultiRdn.issuer.any
        (fun rdn => rdn.any (fun p => p.1 = "organizationName")) = true ∧
    (check_expiry exFetchMulti (fun _ => 1767225600 - 100 * 86400)
        ["multi.test"]).map (fun r => r.issuer) = ["Unknown Issuer"] ∧
    ("Unknown Issuer" : String) ≠ "X" := by
  decide

/-- C6 (amended): for a successfully fetched and parsed certificate, the
issuer field of the result equals the value bound to the `organizationName`
attribute among the leading (first-of-each-RDN) pairs of the issuer RDNs
(the last such binding, per Python dict semantics) when one is present
there, and the fixed fallback "Unknown Issuer" otherwise; an
`organizationName` attribute that is not the first pair of its RDN is
ignored. -/
theorem claim_C6_issuer_org_or_fallback (f : String → Except String PeerCert)
    (now : Nat → Int) (hosts : List String) (j : Nat) (h : String)
    (hh : hosts[j]? = some h) (cert : PeerCert) (t : Int)
    (pairs : List (String × String)) (hf : f h = Except.ok cert)
    (hp : strptimeCert cert.notAfter = some t)
    (hi : firstOfEach cert.issuer = Except.ok pairs) :
    ∀ r, (check_expiry f now hosts)[j]? = some r →
      r.issuer =
        match pairs.reverse.find? (fun p => p.1 = "organizationName") with
        | some q => q.2
        | none => "Unknown Issuer" := by
  intro r hr
  rw [check_expiry_getElem, hh, Option.map_some'] at hr
  obtain rfl : checkOne f (now j) h = r := Option.some.inj hr
  have hok := get_cert_info_ok f h cert t pairs hf hp hi
  rw [checkOne_of_ok f (now j) h t _ hok]
  exact dictGet_dictOf pairs "organizationName" "Unknown Issuer"

/-- C6 witness: a certificate whose issuer has no organization attribute
falls back to "Unknown Issuer". -/
theorem claim_C6_witness :
    (⟨"noorg.test", some 100, "Valid", "Unknown Issuer"⟩ : CheckResult).issuer =
      match ([("countryName", "US")] : List (String × String)).reverse.find?
          (fun p => p.1 = "organizationName") with
      | some q => q.2
      | none => "Unknown Issuer" :=
  claim_C6_issuer_org_or_fallback exFetch (fun _ => 1767225600 - 100 * 86400)
    ["noorg.test"] 0 "noorg.test" rfl exCertNoOrg 1767225600
    [("countryName", "US")] rfl rfl rfl
    ⟨"noorg.test", some 100, "Valid", "Unknown Issuer"⟩ (by decide)

end SslChecker
